import Mathlib

/-!
Shallow embedding of the request-execution core of an HTTP client
(body abstraction, redirect-following request task, blocking bridge),
translated from the Rust sources:
  src/core/body/{mod,bytes,reader,streaming}.rs
  src/async_impl/client/future.rs
  src/blocking/client/mod.rs and src/blocking/executor.rs
Machine bytes are modelled as natural numbers, byte buffers as lists,
and the asynchronous poll loops as explicit state-passing functions.
-/

namespace ReqCore

/-- A byte buffer (`bytes::Bytes`): a list of bytes. -/
abbrev ByteBuf := List Nat

/-- Model of `url::Url`: the pieces the core inspects or rewrites.
`hostPathQuery` stands for everything between the userinfo and the fragment. -/
structure Url where
  scheme : String
  username : String
  password : Option String
  hostPathQuery : String
  fragment : Option String
deriving DecidableEq, Repr

/-- Serialization of a `Url` (`Url::as_str`), used for the Referer header value. -/
def Url.serialize (u : Url) : String :=
  let userinfo :=
    if u.username = "" ∧ u.password = none then ""
    else u.username ++ (match u.password with
      | some p => ":" ++ p
      | none => "") ++ "@"
  let frag := match u.fragment with
    | some f => "#" ++ f
    | none => ""
  u.scheme ++ "://" ++ userinfo ++ u.hostPathQuery ++ frag

/-- Causes appearing inside `crate::error` values used by the core. -/
inductive ErrCause
  | cannotCloneBody
  | timedOut
  | ioFailure (errno : Nat)
  | policyCause (c : Nat)
deriving DecidableEq, Repr

/-- Model of `crate::Error`: the constructor used (builder / request / redirect
/ body) together with its cause and any attached URL. -/
inductive CrateError
  | builderErr (c : ErrCause)
  | requestErr (c : ErrCause) (url : Option Url)
  | redirectErr (c : ErrCause) (url : Url)
  | bodyErr (c : ErrCause)
deriving DecidableEq, Repr

/-! ## Body model (src/core/body)

`Body` wraps one of three variants: a fixed bytes buffer (`BytesBody`),
a pull reader (`ReaderBody`), or a push stream (`StreamingBody`).
`try_clone_body` (the `BodyClone` impls) succeeds only for the bytes
variant; `TryClone for Body` turns a `None` into `CannotCloneBodyError`
wrapped as a body error (src/core/body/mod.rs lines 28-37). -/

/-- The three body variants. For `try_clone` only the tag and, for the
fixed variant, the shared buffer matter; reader/stream sources are not
cloneable regardless of their state. -/
inductive BodyVariant
  | fixed (body : ByteBuf)
  | reader (remaining_len : Option Nat)
  | streaming
deriving DecidableEq, Repr

/-- `BodyClone::try_clone_body`: `BytesBody` returns a clone sharing the same
bytes (src/core/body/bytes.rs lines 62-66); `ReaderBody` and `StreamingBody`
return `None` (reader.rs lines 29-33, streaming.rs lines 95-99). -/
def try_clone_body : BodyVariant → Option BodyVariant
  | .fixed body => some (.fixed body)
  | .reader _ => none
  | .streaming => none

/-- `TryClone for Body` (src/core/body/mod.rs lines 28-37): forward to
`try_clone_body` and map a `None` to `error::body(CannotCloneBodyError)`. -/
def Body.try_clone (b : BodyVariant) : Except CrateError BodyVariant :=
  match try_clone_body b with
  | some c => Except.ok c
  | none => Except.error (.bodyErr .cannotCloneBody)

/-! ### BytesBody (src/core/body/bytes.rs) -/

/-- `BytesBody::poll_data` (bytes.rs lines 31-42): if the buffer is empty the
body is exhausted (`None`), otherwise the whole buffer is taken out with
`mem::replace(&mut self.body, Bytes::new())` and yielded as one chunk.
Returns (yielded chunk, buffer state afterwards); the poll is always Ready
and never yields an error. -/
def BytesBody.poll_data (body : ByteBuf) : Option ByteBuf × ByteBuf :=
  if body.isEmpty then (none, body)
  else (some body, [])

/-- Repeatedly poll a `BytesBody` until it signals end (or fuel runs out),
collecting the yielded chunks. -/
def BytesBody.drain : Nat → ByteBuf → List ByteBuf
  | 0, _ => []
  | fuel + 1, body =>
    match BytesBody.poll_data body with
    | (some chunk, rest) => chunk :: BytesBody.drain fuel rest
    | (none, _) => []

/-! ### ReaderBody (src/core/body/reader.rs)

The underlying `Read` source is modelled generically: a state type `R`
and a read function taking the buffer size offered and returning either
bytes read (the Rust `Read` contract demands at most that many) plus the
advanced reader, or an IO error. -/

/-- Result of one call to `Read::read` on the underlying source. -/
inductive ReadOutcome (R : Type)
  | ok (data : ByteBuf) (next : R)
  | ioFail (errno : Nat) (next : R)

/-- `ReaderBody` state: reader source plus optional remaining length. -/
structure ReaderBody (R : Type) where
  reader : R
  remaining_len : Option Nat

/-- reader.rs line 13. -/
def DEFAULT_CHUNK_SIZE : Nat := 8192

/-- Result of `ReaderBody::poll_data`: end of stream, a chunk, or a body
error (an IO failure wrapped by `crate::error::body`). -/
inductive ReaderPoll (R : Type)
  | endOfStream (st : ReaderBody R)
  | chunk (data : ByteBuf) (st : ReaderBody R)
  | bodyFail (errno : Nat) (st : ReaderBody R)

/-- `ReaderBody::poll_data` (reader.rs lines 39-60): offer the reader a buffer
of `min(remaining_len.unwrap_or(8192), 8192)` bytes; `Ok(0)` signals end,
`Ok(size)` decrements the remaining length (if known) and yields the chunk,
`Err` becomes a body error. -/
def ReaderBody.poll_data (readFn : R → Nat → ReadOutcome R) (st : ReaderBody R) :
    ReaderPoll R :=
  let chunk_size := min (st.remaining_len.getD DEFAULT_CHUNK_SIZE) DEFAULT_CHUNK_SIZE
  match readFn st.reader chunk_size with
  | .ok data next =>
    if data.length = 0 then
      ReaderPoll.endOfStream { st with reader := next }
    else
      ReaderPoll.chunk data
        { reader := next, remaining_len := st.remaining_len.map fun v => v - data.length }
  | .ioFail e next => ReaderPoll.bodyFail e { st with reader := next }

/-- Repeatedly poll a `ReaderBody` until end, error, or fuel exhaustion,
collecting the yielded chunks. -/
def ReaderBody.drain (readFn : R → Nat → ReadOutcome R) :
    Nat → ReaderBody R → List ByteBuf
  | 0, _ => []
  | fuel + 1, st =>
    match ReaderBody.poll_data readFn st with
    | .chunk data st1 => data :: ReaderBody.drain readFn fuel st1
    | _ => []

/-- Total number of bytes in a list of chunks. -/
def totalLen (chunks : List ByteBuf) : Nat :=
  (chunks.map List.length).sum

/-- The Rust `Read` contract: a read never returns more bytes than the
buffer it was offered can hold. -/
def ReadContract (readFn : R → Nat → ReadOutcome R) : Prop :=
  ∀ r k data next, readFn r k = ReadOutcome.ok data next → data.length ≤ k

/-- A well-behaved reader answers a zero-length buffer with `Ok` (of
necessarily zero bytes), as `std::io::Read` documents. -/
def ZeroReadOk (readFn : R → Nat → ReadOutcome R) : Prop :=
  ∀ r, ∃ data next, readFn r 0 = ReadOutcome.ok data next

/-! ## Redirect-following request task (src/async_impl/client/future.rs)

`RequestFuture::poll` drives one logical request. We embed the body of its
loop for a resolved (`Poll::Ready(Ok(res))`) exchange as a pure step
function on the task state. The cookie store is compiled out
(`cfg(feature = "cookies")` paths are omitted). URL joining, UTF-8
decoding, the wire-URI check, the redirect policy and the header
sanitizer live outside this repository's core (url crate,
`crate::redirect`); they enter as parameters of an environment. -/

/-- HTTP method (`http::Method`); only the names the core compares against
are distinguished. -/
inductive Method
  | get
  | head
  | post
  | put
  | other (name : String)
deriving DecidableEq, Repr

/-- Header names the core touches, everything else collapsed to `other`. -/
inductive HeaderName
  | transferEncoding
  | contentEncoding
  | contentType
  | contentLength
  | referer
  | other (name : String)
deriving DecidableEq, Repr

/-- A header multimap as an association list (insertion order kept). -/
abbrev Headers := List (HeaderName × String)

/-- `HeaderMap::remove`: drop every value under the name. -/
def removeHeader (n : HeaderName) (hs : Headers) : Headers :=
  hs.filter fun p => p.1 ≠ n

/-- `HeaderMap::insert`: replace any existing values under the name. -/
def insertHeader (n : HeaderName) (v : String) (hs : Headers) : Headers :=
  removeHeader n hs ++ [(n, v)]

/-- First value stored under a name, if any. -/
def getHeader (n : HeaderName) (hs : Headers) : Option String :=
  (hs.find? fun p => p.1 = n).map Prod.snd

/-- The mutable request carried by the task: method, URL, headers. -/
structure RequestState where
  method : Method
  url : Url
  headers : Headers
deriving DecidableEq, Repr

/-- State of a `RequestFuture` at a resolution point: the request, the
remaining-body-for-resend marker `body : Option<Option<Bytes>>`
(`none` = no body to resend, `some none` = consumed stream,
`some (some b)` = reusable buffer), and the redirect chain. -/
structure TaskState where
  request : RequestState
  body : Option (Option ByteBuf)
  redirect_chain : List Url
deriving DecidableEq, Repr

/-- A resolved transport exchange as the step inspects it: the status code
and the raw bytes of the `Location` header (if present). -/
structure Resp where
  status : Nat
  locationHeader : Option ByteBuf
deriving DecidableEq, Repr

/-- The redirect policy verdict (`redirect::ActionKind`). -/
inductive ActionKind
  | follow
  | stop
  | fail (cause : Nat)
deriving DecidableEq, Repr

/-- External collaborators of the step, as the spec's contracts describe
them: `utf8Decode` is `str::from_utf8(..).ok()`, `join` is `Url::join(..).ok()`,
`isWireUri` is `try_uri(..).is_some()`, `policyCheck` is
`RedirectPolicy::check`, `stripSensitive` is
`redirect::remove_sensitive_headers` (mutates the header map in place),
and `referer` is the client's referer option. -/
structure Env where
  utf8Decode : ByteBuf → Option String
  join : Url → String → Option Url
  isWireUri : Url → Bool
  policyCheck : Nat → Url → List Url → ActionKind
  stripSensitive : Headers → Url → List Url → Headers
  referer : Bool

/-- Resolution of the `Location` header (future.rs lines 134-149): take the
raw header bytes, require valid UTF-8, join against the current URL, and
keep the result only if it is also a valid wire URI. Any failure yields
`none`. -/
def resolveLocation (env : Env) (currentUrl : Url) (resp : Resp) : Option Url :=
  resp.locationHeader.bind fun val =>
    match (env.utf8Decode val).bind fun s => env.join currentUrl s with
    | some url => if env.isWireUri url then some url else none
    | none => none

/-- The header removals performed before a 301/302/303 resend
(future.rs lines 108-115): remove Transfer-Encoding, Content-Encoding,
Content-Type and Content-Length. -/
def stripResendHeaders (hs : Headers) : Headers :=
  removeHeader HeaderName.contentLength
    (removeHeader HeaderName.contentType
      (removeHeader HeaderName.contentEncoding
        (removeHeader HeaderName.transferEncoding hs)))

/-- Status classification with its in-place request mutations
(future.rs lines 105-132). 301/302/303: clear the body marker, remove
Transfer-Encoding, Content-Encoding, Content-Type and Content-Length,
downgrade the method to GET unless it is GET or HEAD, and report
eligible. 307/308: eligible iff the body marker is `none` or a reusable
buffer, no mutation. Anything else: not eligible. Returns the (possibly
mutated) state and the `should_redirect` flag. -/
def classify (st : TaskState) (status : Nat) : TaskState × Bool :=
  if status = 301 ∨ status = 302 ∨ status = 303 then
    let headers1 := stripResendHeaders st.request.headers
    let method1 :=
      match st.request.method with
      | Method.get => Method.get
      | Method.head => Method.head
      | _ => Method.get
    ({ st with
        request := { st.request with headers := headers1, method := method1 },
        body := none },
      true)
  else if status = 307 ∨ status = 308 then
    (st,
      match st.body with
      | some (some _) => true
      | none => true
      | some none => false)
  else (st, false)

/-- `make_referer` (future.rs lines 230-240): no Referer when downgrading
from https to http; otherwise the previous URL with username, password
and fragment removed. (`HeaderValue::from_str` on a serialized URL cannot
fail, since a URL's serialization contains no control bytes, so the final
`parse().ok()` is dropped.) -/
def make_referer (next previous : Url) : Option Url :=
  if next.scheme = "http" ∧ previous.scheme = "https" then none
  else
    some { previous with username := "", password := none, fragment := none }

/-- Referer insertion (future.rs lines 151-155): when the client's referer
option is on and `make_referer` produces a value, insert it under the
Referer name; otherwise leave the headers alone. -/
def applyReferer (env : Env) (st : TaskState) (loc : Url) : TaskState :=
  if env.referer then
    match make_referer loc st.request.url with
    | some r =>
      { st with
          request :=
            { st.request with
                headers := insertHeader HeaderName.referer r.serialize st.request.headers } }
    | none => st
  else st

/-- The resend request handed to the transport on a `Follow` decision:
method, new URL, sanitized headers, and the body actually sent (clone of
the reusable buffer, else empty). -/
structure WireRequest where
  method : Method
  url : Url
  headers : Headers
  body : ByteBuf
deriving DecidableEq, Repr

/-- Outcome of one iteration of the poll loop on a resolved exchange:
resend through the transport and keep looping, finish with the response,
or fail with a Redirect error (cause and current URL). The task state at
the outcome is carried alongside for specification purposes. -/
inductive StepResult
  | resend (wire : WireRequest) (st : TaskState)
  | done (resp : Resp) (st : TaskState)
  | failed (cause : Nat) (url : Url) (st : TaskState)
deriving DecidableEq, Repr

/-- The task state recorded in a step outcome. -/
def StepResult.state : StepResult → TaskState
  | .resend _ st => st
  | .done _ st => st
  | .failed _ _ st => st

/-- One iteration of `RequestFuture::poll`'s loop on a resolved exchange
(future.rs lines 105-217): classify and mutate by status; if eligible,
resolve the Location (an unusable one silently falls through to `done`);
insert the Referer; push the current URL onto the redirect chain; consult
the policy; on `Follow` rewrite the URL, sanitize the headers (which are
written back into the request) and resend with a clone of the reusable
buffer or an empty body; on `Stop` return the response; on `Error` fail
with a Redirect error carrying the current URL. -/
def step (env : Env) (st : TaskState) (resp : Resp) : StepResult :=
  let c := classify st resp.status
  let st1 := c.1
  if c.2 then
    match resolveLocation env st1.request.url resp with
    | some loc =>
      let st2 := applyReferer env st1 loc
      let st3 := { st2 with redirect_chain := st2.redirect_chain ++ [st2.request.url] }
      match env.policyCheck resp.status loc st3.redirect_chain with
      | ActionKind.follow =>
        let headers4 := env.stripSensitive st3.request.headers loc st3.redirect_chain
        let bodyBytes :=
          match st3.body with
          | some (some b) => b
          | _ => []
        let st4 :=
          { st3 with
              request := { method := st3.request.method, url := loc, headers := headers4 } }
        StepResult.resend
          { method := st4.request.method, url := loc, headers := headers4, body := bodyBytes }
          st4
      | ActionKind.stop => StepResult.done resp st3
      | ActionKind.fail cause => StepResult.failed cause st3.request.url st3
    | none => StepResult.done resp st1
  else StepResult.done resp st1

/-- Terminal outcome of running the loop over a list of resolved
exchanges. `pending` means the supplied exchanges ran out while the task
was still resending. -/
inductive RunOutcome
  | pending
  | done (resp : Resp) (st : TaskState)
  | failed (cause : Nat) (url : Url) (st : TaskState)
deriving DecidableEq, Repr

/-- Run the task over successive resolved exchanges, counting the `Follow`
resends actually taken before the terminal outcome. -/
def runCount (env : Env) (st : TaskState) : List Resp → Nat × RunOutcome
  | [] => (0, RunOutcome.pending)
  | r :: rs =>
    match step env st r with
    | StepResult.resend _ st1 =>
      let p := runCount env st1 rs
      (p.1 + 1, p.2)
    | StepResult.done resp st1 => (0, RunOutcome.done resp st1)
    | StepResult.failed cause u st1 => (0, RunOutcome.failed cause u st1)

/-! ## ParkingExecutor (src/blocking/executor.rs) and blocking send

Time is discrete (`Nat` instants). A driven future is abstracted by the
earliest instant at which polling it succeeds (`none` = never ready). The
thread's loop iterations happen at a given list of instants (the first
poll plus every return from `park` / `park_timeout`); the real parking
guarantees are stated as hypotheses on that list where a claim needs
them. -/

/-- Whether a future whose readiness instant is `readyAt` polls `Ready` at
instant `t`. -/
def isReady (readyAt : Option Nat) (t : Nat) : Bool :=
  match readyAt with
  | none => false
  | some r => r ≤ t

/-- `execute_blocking_timeout` (executor.rs lines 52-75) with
`deadline = start + timeout` and instants measured from `start = 0`:
at each iteration instant, poll; if ready return `Ok` (`(true, t)`); else
if the instant has reached the deadline return `TimedOut`
(`(false, t)`); else park and continue with the next instant. `none`
means the instant list ran out with the loop still going. -/
def execute_blocking_timeout (readyAt : Option Nat) (timeout : Nat) :
    List Nat → Option (Bool × Nat)
  | [] => none
  | t :: ts =>
    if isReady readyAt t then some (true, t)
    else if timeout ≤ t then some (false, t)
    else execute_blocking_timeout readyAt timeout ts

/-- `execute_blocking` (executor.rs lines 33-48): the same loop with no
deadline check; it can only return once the future is ready. The returned
instant is when it did. -/
def execute_blocking (readyAt : Option Nat) : List Nat → Option Nat
  | [] => none
  | t :: ts =>
    if isReady readyAt t then some t
    else execute_blocking readyAt ts

/-- `execute_blocking_flatten_timeout` (executor.rs lines 19-30): with a
timeout, run the deadline loop; without one, run the unbounded loop
(whose only outcome is success). -/
def execute_blocking_flatten_timeout (readyAt : Option Nat)
    (maybe_timeout : Option Nat) (ts : List Nat) : Option (Bool × Nat) :=
  match maybe_timeout with
  | some timeout => execute_blocking_timeout readyAt timeout ts
  | none => (execute_blocking readyAt ts).map fun t => (true, t)

/-- The timeout `blocking::Client::send` passes to the executor
(blocking/client/mod.rs line 613):
`request.timeout().copied().or(self.timeout.0)` — the per-request timeout
when present, otherwise the client default. -/
def effectiveTimeout (requestTimeout clientTimeout : Option Nat) : Option Nat :=
  match requestTimeout with
  | some t => some t
  | none => clientTimeout

/-- The caller-side wait of `blocking::Client::send`
(blocking/client/mod.rs lines 610-637): park on the response channel
through `execute_blocking_flatten_timeout`, bounded by the effective
timeout. -/
def clientSendWait (requestTimeout clientTimeout : Option Nat)
    (readyAt : Option Nat) (ts : List Nat) : Option (Bool × Nat) :=
  execute_blocking_flatten_timeout readyAt (effectiveTimeout requestTimeout clientTimeout) ts

/-! ## The executor's recursion check (src/blocking/executor.rs lines 92-102)

`enter()` runs only under `cfg(debug_assertions)`; there it builds a
shell tokio runtime and calls `.enter(|| {})`, which (tokio 0.2
semantics) panics exactly when the calling thread is already inside a
tokio runtime context. It consults no state of the ParkingExecutor
itself. -/

/-- The facts about the calling thread that `enter()`'s check could
depend on: whether the build has debug assertions, whether the thread is
inside a tokio runtime context, and whether it is currently inside a
ParkingExecutor-driven task (i.e. inside a poll made by
`execute_blocking` / `execute_blocking_timeout`). -/
structure ExecContext where
  debugAssertions : Bool
  insideTokioRuntime : Bool
  insideParkingTask : Bool
deriving DecidableEq, Repr

/-- `enter()` (executor.rs lines 92-102): `none` models the hard failure
(panic from the shell runtime's `.enter` when nested inside a tokio
runtime context, debug builds only); `some ()` means the check passed and
the blocking loop proceeds. -/
def enter (ctx : ExecContext) : Option Unit :=
  if ctx.debugAssertions && ctx.insideTokioRuntime then none
  else some ()

/-- Whether an invocation of `execute_blocking` /
`execute_blocking_timeout` hard-fails at its `enter()` check. -/
def blockingInvocationDetected (ctx : ExecContext) : Bool :=
  (enter ctx).isNone

/-! ## Concrete instances used to evaluate the model -/

/-- A plain http URL. -/
def urlA : Url :=
  { scheme := "http", username := "", password := none,
    hostPathQuery := "example.com/a", fragment := none }

/-- An https URL carrying userinfo and a fragment. -/
def urlB : Url :=
  { scheme := "https", username := "u", password := some "pw",
    hostPathQuery := "example.com/b", fragment := some "top" }

/-- A concrete UTF-8 decoder for the byte strings the examples use. -/
def utf8DecodeA (bs : ByteBuf) : Option String :=
  if bs = [98] then some "b" else if bs = [255] then none else some "x"

/-- A concrete join: replace the path with the joined reference. -/
def joinA (u : Url) (s : String) : Option Url :=
  some { u with hostPathQuery := "example.com/" ++ s }

/-- An environment whose policy always says Stop. -/
def envStop : Env :=
  { utf8Decode := utf8DecodeA, join := joinA, isWireUri := fun _ => true,
    policyCheck := fun _ _ _ => ActionKind.stop,
    stripSensitive := fun hs _ _ => hs, referer := false }

/-- An environment whose policy always says Error (cause 7). -/
def envFail : Env :=
  { utf8Decode := utf8DecodeA, join := joinA, isWireUri := fun _ => true,
    policyCheck := fun _ _ _ => ActionKind.fail 7,
    stripSensitive := fun hs _ _ => hs, referer := false }

/-- An environment that follows until the chain holds two URLs, then
errors (cause 9); referer enabled, sanitizer removes nothing. -/
def envFollow2 : Env :=
  { utf8Decode := utf8DecodeA, join := joinA, isWireUri := fun _ => true,
    policyCheck := fun _ _ ch => if ch.length ≤ 2 then ActionKind.follow else ActionKind.fail 9,
    stripSensitive := fun hs _ _ => hs, referer := true }

/-- A GET task with no body and an empty chain at `urlA`. -/
def stA : TaskState :=
  { request := { method := Method.get, url := urlA, headers := [] },
    body := none, redirect_chain := [] }

/-- A POST task whose body was a non-reusable stream (marker
`Some(None)`), carrying a Content-Type header. -/
def stConsumed : TaskState :=
  { request :=
      { method := Method.post, url := urlA,
        headers := [(HeaderName.contentType, "text/plain")] },
    body := some none, redirect_chain := [] }

/-- A POST task with a reusable buffer body and the four
resend-sensitive headers set. -/
def stPost : TaskState :=
  { request :=
      { method := Method.post, url := urlA,
        headers :=
          [(HeaderName.contentType, "text/plain"),
           (HeaderName.contentLength, "3"),
           (HeaderName.contentEncoding, "identity"),
           (HeaderName.transferEncoding, "chunked"),
           (HeaderName.other "accept", "a")] },
    body := some (some [1, 2, 3]), redirect_chain := [] }

/-- A 302 response with a usable Location (`"b"`). -/
def resp302 : Resp := { status := 302, locationHeader := some [98] }

/-- A 301 response with a usable Location. -/
def resp301 : Resp := { status := 301, locationHeader := some [98] }

/-- A 307 response with a usable Location. -/
def resp307 : Resp := { status := 307, locationHeader := some [98] }

/-- A reader source for the examples: the remaining bytes of the
underlying stream; a read takes at most the offered buffer size. -/
def takeReadFn (l : ByteBuf) (k : Nat) : ReadOutcome ByteBuf :=
  ReadOutcome.ok (l.take k) (l.drop k)

/-- The URL `joinA` produces for the Location reference `"b"`. -/
def urlAB : Url :=
  { scheme := "http", username := "", password := none,
    hostPathQuery := "example.com/b", fragment := none }

/-- A plain https URL. -/
def urlC : Url :=
  { scheme := "https", username := "", password := none,
    hostPathQuery := "example.com/c", fragment := none }

/-- `urlB` with username, password and fragment removed. -/
def strippedB : Url :=
  { scheme := "https", username := "", password := none,
    hostPathQuery := "example.com/b", fragment := none }

/-- A GET task at the https URL `urlB`. -/
def stB : TaskState :=
  { request := { method := Method.get, url := urlB, headers := [] },
    body := none, redirect_chain := [] }

/-- The state `step` reaches from `stA` after pushing `urlA` onto the chain. -/
def stStop1 : TaskState :=
  { request := { method := Method.get, url := urlA, headers := [] },
    body := none, redirect_chain := [urlA] }

/-- The final task state of the two-Follows-then-Error run. -/
def stFin : TaskState :=
  { request :=
      { method := Method.get, url := urlAB,
        headers := [(HeaderName.referer, "http://example.com/b")] },
    body := none, redirect_chain := [urlA, urlAB, urlAB] }

/-- A 302 response whose Location header bytes are not valid UTF-8 under
`utf8DecodeA`. -/
def respBad : Resp := { status := 302, locationHeader := some [255] }

/-- The wire request `step` sends when following a 301 from `stPost`. -/
def wireC3 : WireRequest :=
  { method := Method.get, url := urlAB,
    headers :=
      [(HeaderName.other "accept", "a"), (HeaderName.referer, "http://example.com/a")],
    body := [] }

/-- The task state accompanying `wireC3`. -/
def stC3 : TaskState :=
  { request :=
      { method := Method.get, url := urlAB,
        headers :=
          [(HeaderName.other "accept", "a"),
           (HeaderName.referer, "http://example.com/a")] },
    body := none, redirect_chain := [urlA] }

/-! ## Helper lemmas -/

theorem takeReadFn_contract : ReadContract takeReadFn := by
  intro r k data next h
  unfold takeReadFn at h
  cases h
  simp

theorem takeReadFn_zero : ZeroReadOk takeReadFn := by
  intro r
  exact ⟨r.take 0, r.drop 0, rfl⟩

theorem readerPoll_chunk_spec {R : Type} (readFn : R → Nat → ReadOutcome R)
    (hc : ReadContract readFn) (st : ReaderBody R) (n : Nat)
    (hn : st.remaining_len = some n) (data : ByteBuf) (st1 : ReaderBody R)
    (h : ReaderBody.poll_data readFn st = ReaderPoll.chunk data st1) :
    data.length ≤ min n DEFAULT_CHUNK_SIZE ∧ data.length ≤ n ∧
      st1.remaining_len = some (n - data.length) := by
  unfold ReaderBody.poll_data at h
  rw [hn] at h
  simp only [Option.getD_some] at h
  cases hr : readFn st.reader (min n DEFAULT_CHUNK_SIZE) with
  | ok data0 next =>
    rw [hr] at h
    by_cases hz : data0.length = 0
    · simp [hz] at h
    · simp only [hz, if_false] at h
      cases h
      have hle := hc _ _ _ _ hr
      exact ⟨hle, le_trans hle (min_le_left _ _), rfl⟩
  | ioFail e next =>
    rw [hr] at h
    cases h

theorem readerDrain_total_le {R : Type} (readFn : R → Nat → ReadOutcome R)
    (hc : ReadContract readFn) :
    ∀ (fuel : Nat) (st : ReaderBody R) (n : Nat), st.remaining_len = some n →
      totalLen (ReaderBody.drain readFn fuel st) ≤ n := by
  intro fuel
  induction fuel with
  | zero => intro st n _; simp [ReaderBody.drain, totalLen]
  | succ fuel ih =>
    intro st n hn
    unfold ReaderBody.drain
    cases hp : ReaderBody.poll_data readFn st with
    | chunk data st1 =>
      obtain ⟨_, hlen, hrem⟩ := readerPoll_chunk_spec readFn hc st n hn data st1 hp
      have hrest := ih st1 (n - data.length) hrem
      simp only [totalLen, List.map_cons, List.sum_cons]
      simp only [totalLen] at hrest
      omega
    | endOfStream st1 => simp [totalLen]
    | bodyFail e st1 => simp [totalLen]

theorem readerPoll_zero_end {R : Type} (readFn : R → Nat → ReadOutcome R)
    (hc : ReadContract readFn) (hz : ZeroReadOk readFn) (st : ReaderBody R)
    (h0 : st.remaining_len = some 0) :
    ∃ st1, ReaderBody.poll_data readFn st = ReaderPoll.endOfStream st1 := by
  obtain ⟨data, next, hr⟩ := hz st.reader
  have hlen : data.length = 0 := Nat.le_zero.mp (hc _ _ _ _ hr)
  refine ⟨{ st with reader := next }, ?_⟩
  unfold ReaderBody.poll_data
  rw [h0]
  simp only [Option.getD_some, Nat.zero_min]
  rw [hr]
  simp [hlen]

theorem mem_removeHeader {p : HeaderName × String} {n : HeaderName} {hs : Headers} :
    p ∈ removeHeader n hs ↔ p ∈ hs ∧ p.1 ≠ n := by
  simp [removeHeader]

theorem getHeader_eq_none {n : HeaderName} {hs : Headers} :
    getHeader n hs = none ↔ ∀ p ∈ hs, p.1 ≠ n := by
  simp [getHeader, List.find?_eq_none]

theorem getHeader_insertHeader_self {n : HeaderName} {v : String} {hs : Headers} :
    getHeader n (insertHeader n v hs) = some v := by
  unfold insertHeader getHeader
  rw [List.find?_append]
  have h1 : (removeHeader n hs).find? (fun p => p.1 = n) = none := by
    rw [List.find?_eq_none]
    intro p hp
    simp [(mem_removeHeader.mp hp).2]
  rw [h1]
  simp

theorem mem_insertHeader {p : HeaderName × String} {n : HeaderName} {v : String}
    {hs : Headers} :
    p ∈ insertHeader n v hs → p ∈ hs ∨ p = (n, v) := by
  intro hp
  rcases List.mem_append.mp hp with h | h
  · exact Or.inl (mem_removeHeader.mp h).1
  · simp at h
    exact Or.inr h

theorem classify_chain (st : TaskState) (s : Nat) :
    (classify st s).1.redirect_chain = st.redirect_chain := by
  unfold classify
  split
  · rfl
  · split <;> rfl

theorem classify_url (st : TaskState) (s : Nat) :
    (classify st s).1.request.url = st.request.url := by
  unfold classify
  split
  · rfl
  · split <;> rfl

theorem applyReferer_body (env : Env) (st : TaskState) (loc : Url) :
    (applyReferer env st loc).body = st.body := by
  unfold applyReferer
  split
  · split <;> rfl
  · rfl

theorem applyReferer_chain (env : Env) (st : TaskState) (loc : Url) :
    (applyReferer env st loc).redirect_chain = st.redirect_chain := by
  unfold applyReferer
  split
  · split <;> rfl
  · rfl

theorem applyReferer_url (env : Env) (st : TaskState) (loc : Url) :
    (applyReferer env st loc).request.url = st.request.url := by
  unfold applyReferer
  split
  · split <;> rfl
  · rfl

theorem applyReferer_method (env : Env) (st : TaskState) (loc : Url) :
    (applyReferer env st loc).request.method = st.request.method := by
  unfold applyReferer
  split
  · split <;> rfl
  · rfl

theorem mem_applyReferer {p : HeaderName × String} (env : Env) (st : TaskState)
    (loc : Url) :
    p ∈ (applyReferer env st loc).request.headers →
      p ∈ st.request.headers ∨ p.1 = HeaderName.referer := by
  unfold applyReferer
  split
  · split
    · intro hp
      rcases mem_insertHeader hp with h | h
      · exact Or.inl h
      · right
        rw [h]
    · exact fun hp => Or.inl hp
  · exact fun hp => Or.inl hp

theorem mem_stripResendHeaders {p : HeaderName × String} {hs : Headers} :
    p ∈ stripResendHeaders hs ↔
      p ∈ hs ∧ p.1 ≠ HeaderName.transferEncoding ∧ p.1 ≠ HeaderName.contentEncoding ∧
        p.1 ≠ HeaderName.contentType ∧ p.1 ≠ HeaderName.contentLength := by
  simp only [stripResendHeaders, mem_removeHeader]
  tauto

theorem classify_3xx (st : TaskState) (s : Nat)
    (hs : s = 301 ∨ s = 302 ∨ s = 303) :
    classify st s =
      ({ st with
          request :=
            { st.request with
                headers := stripResendHeaders st.request.headers,
                method :=
                  match st.request.method with
                  | Method.get => Method.get
                  | Method.head => Method.head
                  | _ => Method.get },
          body := none },
        true) := by
  unfold classify
  rw [if_pos hs]

theorem classify_307_308 (st : TaskState) (s : Nat) (hs : s = 307 ∨ s = 308) :
    classify st s =
      (st,
        match st.body with
        | some (some _) => true
        | none => true
        | some none => false) := by
  have h3 : ¬(s = 301 ∨ s = 302 ∨ s = 303) := by
    rcases hs with h | h <;> rw [h] <;> decide
  unfold classify
  rw [if_neg h3, if_pos hs]

theorem step_state_chain (env : Env) (st : TaskState) (resp : Resp) :
    (step env st resp).state.redirect_chain =
      if (classify st resp.status).2 = true ∧
          (resolveLocation env (classify st resp.status).1.request.url resp).isSome = true
      then st.redirect_chain ++ [st.request.url]
      else st.redirect_chain := by
  unfold step
  by_cases hc : (classify st resp.status).2 = true
  · rw [if_pos hc]
    cases hl : resolveLocation env (classify st resp.status).1.request.url resp with
    | none =>
      dsimp only
      rw [if_neg (by simp)]
      simp [StepResult.state, classify_chain]
    | some loc =>
      dsimp only
      rw [if_pos ⟨hc, rfl⟩]
      cases hp : env.policyCheck resp.status loc
          ((applyReferer env (classify st resp.status).1 loc).redirect_chain ++
            [(applyReferer env (classify st resp.status).1 loc).request.url]) <;>
        simp [StepResult.state, applyReferer_chain, applyReferer_url, classify_chain,
          classify_url]
  · rw [if_neg hc]
    rw [if_neg fun hh => hc hh.1]
    simp [StepResult.state, classify_chain]

theorem step_resend_inv (env : Env) (st : TaskState) (resp : Resp)
    (wire : WireRequest) (st4 : TaskState)
    (hstrip : ∀ hd u ch p, p ∈ env.stripSensitive hd u ch → p ∈ hd)
    (h : step env st resp = StepResult.resend wire st4) :
    (classify st resp.status).2 = true ∧
    wire.method = (classify st resp.status).1.request.method ∧
    (wire.body =
      match (classify st resp.status).1.body with
      | some (some b) => b
      | _ => []) ∧
    (∀ p ∈ wire.headers,
      p ∈ (classify st resp.status).1.request.headers ∨ p.1 = HeaderName.referer) := by
  unfold step at h
  by_cases hc : (classify st resp.status).2 = true
  · rw [if_pos hc] at h
    cases hl : resolveLocation env (classify st resp.status).1.request.url resp with
    | none => rw [hl] at h; cases h
    | some loc =>
      rw [hl] at h
      dsimp only at h
      cases hp : env.policyCheck resp.status loc
          ((applyReferer env (classify st resp.status).1 loc).redirect_chain ++
            [(applyReferer env (classify st resp.status).1 loc).request.url]) with
      | follow =>
        rw [hp] at h
        cases h
        refine ⟨hc, applyReferer_method env _ loc, ?_, ?_⟩
        · rw [applyReferer_body env _ loc]
        · intro p hp2
          have hmem := hstrip _ _ _ _ hp2
          exact mem_applyReferer env _ loc hmem
      | stop => rw [hp] at h; cases h
      | fail cause => rw [hp] at h; cases h
  · rw [if_neg hc] at h
    cases h

theorem step_resend_chain_len (env : Env) (st : TaskState) (resp : Resp)
    (wire : WireRequest) (st1 : TaskState)
    (h : step env st resp = StepResult.resend wire st1) :
    st1.redirect_chain.length = st.redirect_chain.length + 1 := by
  have hl := step_state_chain env st resp
  rw [h] at hl
  simp only [StepResult.state] at hl
  by_cases hcond : ((classify st resp.status).2 = true ∧
      (resolveLocation env (classify st resp.status).1.request.url resp).isSome = true)
  · rw [if_pos hcond] at hl
    rw [hl]
    simp
  · rw [if_neg hcond] at hl
    exfalso
    apply hcond
    unfold step at h
    by_cases hc : (classify st resp.status).2 = true
    · rw [if_pos hc] at h
      cases hloc : resolveLocation env (classify st resp.status).1.request.url resp with
      | none => rw [hloc] at h; cases h
      | some loc => exact ⟨hc, rfl⟩
    · rw [if_neg hc] at h
      cases h

theorem step_failed_inv (env : Env) (st : TaskState) (resp : Resp)
    (cause : Nat) (u : Url) (st1 : TaskState)
    (h : step env st resp = StepResult.failed cause u st1) :
    st1.redirect_chain.length = st.redirect_chain.length + 1 := by
  unfold step at h
  by_cases hc : (classify st resp.status).2 = true
  · rw [if_pos hc] at h
    cases hloc : resolveLocation env (classify st resp.status).1.request.url resp with
    | none => rw [hloc] at h; cases h
    | some loc =>
      rw [hloc] at h
      dsimp only at h
      cases hp : env.policyCheck resp.status loc
          ((applyReferer env (classify st resp.status).1 loc).redirect_chain ++
            [(applyReferer env (classify st resp.status).1 loc).request.url]) with
      | follow => rw [hp] at h; cases h
      | stop => rw [hp] at h; cases h
      | fail c0 =>
        rw [hp] at h
        cases h
        simp [applyReferer_chain, classify_chain]
  · rw [if_neg hc] at h
    cases h

theorem runCount_failed_chain (env : Env) :
    ∀ (rs : List Resp) (st : TaskState) (n cause : Nat) (u : Url) (stf : TaskState),
      runCount env st rs = (n, RunOutcome.failed cause u stf) →
      stf.redirect_chain.length = st.redirect_chain.length + n + 1 := by
  intro rs
  induction rs with
  | nil =>
    intro st n cause u stf h
    simp [runCount] at h
  | cons r rs ih =>
    intro st n cause u stf h
    unfold runCount at h
    cases hs : step env st r with
    | resend w st1 =>
      rw [hs] at h
      simp only [Prod.mk.injEq] at h
      obtain ⟨hn, ho⟩ := h
      have hrec := ih st1 (runCount env st1 rs).1 cause u stf (by rw [← ho])
      have hlen := step_resend_chain_len env st r w st1 hs
      omega
    | done resp st1 =>
      rw [hs] at h
      simp at h
    | failed c0 u0 st1 =>
      rw [hs] at h
      simp only [Prod.mk.injEq, RunOutcome.failed.injEq] at h
      obtain ⟨hn, hc0, hu0, hst⟩ := h
      have hlen := step_failed_inv env st r c0 u0 st1 hs
      subst hst
      omega

theorem execute_blocking_timeout_le (readyAt : Option Nat) (timeout : Nat) :
    ∀ (ts : List Nat) (res : Bool) (t : Nat), (∀ u ∈ ts, u ≤ timeout) →
      execute_blocking_timeout readyAt timeout ts = some (res, t) → t ≤ timeout := by
  intro ts
  induction ts with
  | nil =>
    intro res t _ h
    simp [execute_blocking_timeout] at h
  | cons u us ih =>
    intro res t hts h
    unfold execute_blocking_timeout at h
    by_cases hr : isReady readyAt u = true
    · rw [if_pos hr] at h
      cases h
      exact hts u (List.mem_cons_self u us)
    · rw [if_neg hr] at h
      by_cases ht : timeout ≤ u
      · rw [if_pos ht] at h
        cases h
        exact hts u (List.mem_cons_self u us)
      · rw [if_neg ht] at h
        exact ih res t (fun v hv => hts v (List.mem_cons_of_mem u hv)) h

theorem execute_blocking_never : ∀ ts : List Nat, execute_blocking none ts = none := by
  intro ts
  induction ts with
  | nil => rfl
  | cons u us ih => simp [execute_blocking, isReady, ih]

/-! ## Claim theorems -/

/-- C4: for every Fixed (bytes-backed) body, `Body::try_clone` succeeds
and the clone holds exactly the same bytes as the original; for every
Reader body and every Stream body it fails with a `CannotCloneBody`
body error. -/
theorem c4_try_clone :
    (∀ bs, Body.try_clone (BodyVariant.fixed bs) = Except.ok (BodyVariant.fixed bs)) ∧
    (∀ len, Body.try_clone (BodyVariant.reader len) =
      Except.error (CrateError.bodyErr ErrCause.cannotCloneBody)) ∧
    Body.try_clone BodyVariant.streaming =
      Except.error (CrateError.bodyErr ErrCause.cannotCloneBody) :=
  ⟨fun _ => rfl, fun _ => rfl, rfl⟩

/-- C5: a non-empty Fixed body yields exactly one chunk equal to its
whole buffer and then signals end; an empty Fixed body signals end
immediately with zero chunks; once a poll has signalled end, every later
poll signals end again, so no further chunks are ever produced. -/
theorem c5_fixed_body :
    (∀ body : ByteBuf, body ≠ [] → BytesBody.poll_data body = (some body, [])) ∧
    (∀ body : ByteBuf, body ≠ [] → ∀ fuel, BytesBody.drain (fuel + 1) body = [body]) ∧
    (∀ fuel, BytesBody.drain fuel ([] : ByteBuf) = []) ∧
    BytesBody.poll_data ([] : ByteBuf) = (none, []) ∧
    (∀ body : ByteBuf, (BytesBody.poll_data body).1 = none →
      BytesBody.poll_data ((BytesBody.poll_data body).2) = (none, body)) := by
    refine ⟨?_, ?_, ?_, rfl, ?_⟩
    · intro body hb
      simp [BytesBody.poll_data, hb]
    · intro body hb fuel
      simp [BytesBody.drain, BytesBody.poll_data, hb]
      cases fuel <;> simp [BytesBody.drain, BytesBody.poll_data]
    · intro fuel
      cases fuel <;> simp [BytesBody.drain, BytesBody.poll_data]
    · intro body h
      by_cases hb : body = []
      · subst hb; rfl
      · simp [BytesBody.poll_data, hb] at h

/-- C5 witness: the two-byte body yields its whole content in one chunk
and is empty afterwards. -/
theorem c5_witness :
    BytesBody.poll_data [1, 2] = (some [1, 2], []) :=
  c5_fixed_body.1 [1, 2] (by decide)

/-- C10: with a reader honouring the `Read` contract, every chunk a
Reader body with known remaining length `n` yields has at most
`min(n, 8192)` bytes, so the remaining-length decrement never underflows
(the new remaining length is exactly `n - size`); the total bytes
yielded across all polls never exceed `n`; and once the remaining
counter is `0` the body signals end-of-stream even if the reader has
more data. -/
theorem c10_reader_body {R : Type} (readFn : R → Nat → ReadOutcome R)
    (hc : ReadContract readFn) (hz : ZeroReadOk readFn) :
    (∀ (st : ReaderBody R) n data st1, st.remaining_len = some n →
      ReaderBody.poll_data readFn st = ReaderPoll.chunk data st1 →
      data.length ≤ min n DEFAULT_CHUNK_SIZE ∧ data.length ≤ n ∧
        st1.remaining_len = some (n - data.length)) ∧
    (∀ fuel (st : ReaderBody R) n, st.remaining_len = some n →
      totalLen (ReaderBody.drain readFn fuel st) ≤ n) ∧
    (∀ st : ReaderBody R, st.remaining_len = some 0 →
      ∃ st1, ReaderBody.poll_data readFn st = ReaderPoll.endOfStream st1) :=
  ⟨fun st n data st1 hn h => readerPoll_chunk_spec readFn hc st n hn data st1 h,
   fun fuel st n hn => readerDrain_total_le readFn hc fuel st n hn,
   fun st h0 => readerPoll_zero_end readFn hc hz st h0⟩

/-- C10 witness: a reader with remaining length 0 over a source that
still holds three bytes signals end-of-stream. -/
theorem c10_witness :
    ∃ st1, ReaderBody.poll_data takeReadFn
      { reader := [5, 6, 7], remaining_len := some 0 } = ReaderPoll.endOfStream st1 :=
  (c10_reader_body takeReadFn takeReadFn_contract takeReadFn_zero).2.2
    { reader := [5, 6, 7], remaining_len := some 0 } rfl

/-- C2: for a resolved exchange whose status is 307 or 308 the redirect
is classified eligible iff the remaining-body-for-resend marker is
`None` or a reusable buffer, never a consumed stream; the classification
mutates nothing; and with a consumed-stream marker (e.g. a 307 answer to
a POST whose body was a non-reusable reader) no redirect is attempted
and the response is returned as-is. -/
theorem c2_resend_marker (env : Env) (st : TaskState) (resp : Resp)
    (hs : resp.status = 307 ∨ resp.status = 308) :
    ((classify st resp.status).2 = true ↔
      (st.body = none ∨ ∃ b, st.body = some (some b))) ∧
    (classify st resp.status).1 = st ∧
    (st.body = some none → step env st resp = StepResult.done resp st) := by
  have hcl := classify_307_308 st resp.status hs
  refine ⟨?_, by rw [hcl], ?_⟩
  · rw [hcl]
    cases hb : st.body with
    | none => simp
    | some b =>
      cases b with
      | none => simp
      | some bs => simp
  · intro hb
    unfold step
    rw [hcl, hb]
    simp

/-- C2 witness: a 307 response to the consumed-stream POST task is
returned as-is. -/
theorem c2_witness :
    step envStop stConsumed resp307 = StepResult.done resp307 stConsumed :=
  (c2_resend_marker envStop stConsumed resp307 (Or.inl rfl)).2.2 rfl

/-- C3: a 301/302/303 exchange is always classified eligible; the
classification clears the body marker to `None`, removes
Transfer-Encoding, Content-Encoding, Content-Type and Content-Length,
and downgrades the method to GET unless it is GET or HEAD; hence, for a
sanitizer that only removes headers, a resend following such a response
to a POST carries a GET with an empty body and none of those four
headers. -/
theorem c3_see_other_rewrite (env : Env) (st : TaskState) (resp : Resp)
    (hs : resp.status = 301 ∨ resp.status = 302 ∨ resp.status = 303)
    (hstrip : ∀ hd u ch p, p ∈ env.stripSensitive hd u ch → p ∈ hd) :
    (classify st resp.status).2 = true ∧
    (classify st resp.status).1.body = none ∧
    getHeader HeaderName.transferEncoding (classify st resp.status).1.request.headers = none ∧
    getHeader HeaderName.contentEncoding (classify st resp.status).1.request.headers = none ∧
    getHeader HeaderName.contentType (classify st resp.status).1.request.headers = none ∧
    getHeader HeaderName.contentLength (classify st resp.status).1.request.headers = none ∧
    ((st.request.method = Method.get ∨ st.request.method = Method.head) →
      (classify st resp.status).1.request.method = st.request.method) ∧
    (¬(st.request.method = Method.get ∨ st.request.method = Method.head) →
      (classify st resp.status).1.request.method = Method.get) ∧
    (∀ wire st4, step env st resp = StepResult.resend wire st4 →
      wire.body = [] ∧
      (st.request.method = Method.post → wire.method = Method.get) ∧
      getHeader HeaderName.transferEncoding wire.headers = none ∧
      getHeader HeaderName.contentEncoding wire.headers = none ∧
      getHeader HeaderName.contentType wire.headers = none ∧
      getHeader HeaderName.contentLength wire.headers = none) := by
  have hcl := classify_3xx st resp.status hs
  have hbody : (classify st resp.status).1.body = none := by rw [hcl]
  have hhead : (classify st resp.status).1.request.headers =
      stripResendHeaders st.request.headers := by rw [hcl]
  have habs : ∀ n : HeaderName,
      (n = HeaderName.transferEncoding ∨ n = HeaderName.contentEncoding ∨
        n = HeaderName.contentType ∨ n = HeaderName.contentLength) →
      getHeader n (stripResendHeaders st.request.headers) = none := by
    intro n hn
    rw [getHeader_eq_none]
    intro p hp
    have hmem := mem_stripResendHeaders.mp hp
    rcases hn with h | h | h | h <;> rw [h] <;> tauto
  refine ⟨by rw [hcl], hbody, ?_, ?_, ?_, ?_, ?_, ?_, ?_⟩
  · rw [hhead]; exact habs _ (Or.inl rfl)
  · rw [hhead]; exact habs _ (Or.inr (Or.inl rfl))
  · rw [hhead]; exact habs _ (Or.inr (Or.inr (Or.inl rfl)))
  · rw [hhead]; exact habs _ (Or.inr (Or.inr (Or.inr rfl)))
  · intro hm
    rw [hcl]
    rcases hm with h | h <;> rw [h]
  · intro hm
    rw [hcl]
    cases hmm : st.request.method with
    | get => exact absurd (Or.inl hmm) hm
    | head => exact absurd (Or.inr hmm) hm
    | post => rfl
    | put => rfl
    | other s => rfl
  · intro wire st4 hstep
    obtain ⟨_, hmeth, hbody2, hmem⟩ := step_resend_inv env st resp wire st4 hstrip hstep
    have habs2 : ∀ n : HeaderName,
        (n = HeaderName.transferEncoding ∨ n = HeaderName.contentEncoding ∨
          n = HeaderName.contentType ∨ n = HeaderName.contentLength) →
        getHeader n wire.headers = none := by
      intro n hn
      rw [getHeader_eq_none]
      intro p hp
      rcases hmem p hp with h | h
      · rw [hhead] at h
        have hmem2 := mem_stripResendHeaders.mp h
        rcases hn with h2 | h2 | h2 | h2 <;> rw [h2] <;> tauto
      · rw [h]
        rcases hn with h2 | h2 | h2 | h2 <;> rw [h2] <;> decide
    refine ⟨?_, ?_, ?_, ?_, ?_, ?_⟩
    · rw [hbody2, hbody]
    · intro hp2
      rw [hmeth, hcl, hp2]
    · exact habs2 _ (Or.inl rfl)
    · exact habs2 _ (Or.inr (Or.inl rfl))
    · exact habs2 _ (Or.inr (Or.inr (Or.inl rfl)))
    · exact habs2 _ (Or.inr (Or.inr (Or.inr rfl)))

/-- C3 witness: following a 301 from the POST-with-body task yields a
GET resend with an empty body. -/
theorem c3_witness : wireC3.body = [] ∧ wireC3.method = Method.get :=
  have h :=
    (c3_see_other_rewrite envFollow2 stPost resp301 (Or.inl rfl)
      (fun _ _ _ _ hp => hp)).2.2.2.2.2.2.2.2 wireC3 stC3 (by decide)
  ⟨h.1, h.2.1 rfl⟩

/-- C7: when an eligible response carries an unusable Location (absent
header, invalid UTF-8, failed join against the current URL, or not a
valid wire URI) the task does not fail: the step ends with the original
response as the terminal Done result and the redirect chain is not
extended; each of the four failure modes makes the resolved Location
`none`. -/
theorem c7_unusable_location :
    (∀ env st resp, (classify st resp.status).2 = true →
      resolveLocation env (classify st resp.status).1.request.url resp = none →
      step env st resp = StepResult.done resp (classify st resp.status).1 ∧
      (step env st resp).state.redirect_chain = st.redirect_chain) ∧
    (∀ env u (resp : Resp), resp.locationHeader = none →
      resolveLocation env u resp = none) ∧
    (∀ env u (resp : Resp) val, resp.locationHeader = some val →
      env.utf8Decode val = none → resolveLocation env u resp = none) ∧
    (∀ env u (resp : Resp) val s, resp.locationHeader = some val →
      env.utf8Decode val = some s → env.join u s = none →
      resolveLocation env u resp = none) ∧
    (∀ env u (resp : Resp) val s loc, resp.locationHeader = some val →
      env.utf8Decode val = some s → env.join u s = some loc →
      env.isWireUri loc = false → resolveLocation env u resp = none) := by
  refine ⟨?_, ?_, ?_, ?_, ?_⟩
  · intro env st resp hc hl
    have hst : step env st resp = StepResult.done resp (classify st resp.status).1 := by
      unfold step
      rw [if_pos hc, hl]
    refine ⟨hst, ?_⟩
    rw [hst]
    simp [StepResult.state, classify_chain]
  · intro env u resp h
    simp [resolveLocation, h]
  · intro env u resp val h1 h2
    simp [resolveLocation, h1, h2]
  · intro env u resp val s h1 h2 h3
    simp [resolveLocation, h1, h2, h3]
  · intro env u resp val s loc h1 h2 h3 h4
    simp [resolveLocation, h1, h2, h3, h4]

/-- C7 witness: a 302 whose Location bytes do not decode as UTF-8 ends
the step with the original response and an unchanged chain. -/
theorem c7_witness :
    step envStop stA respBad = StepResult.done respBad (classify stA respBad.status).1 ∧
    (step envStop stA respBad).state.redirect_chain = stA.redirect_chain :=
  c7_unusable_location.1 envStop stA respBad (by decide) (by decide)

/-- C8: `make_referer` omits the Referer exactly when downgrading from
https to http (so it is produced for https-to-https, http-to-http and
http-to-https); when produced, its value is the previous URL with
username, password and fragment removed; and with the client referer
option on, that value is what gets inserted under the Referer name
(while a `none` leaves the request untouched). -/
theorem c8_referer_value :
    (∀ next previous, make_referer next previous = none ↔
      (next.scheme = "http" ∧ previous.scheme = "https")) ∧
    (∀ next previous r, make_referer next previous = some r →
      r = { previous with username := "", password := none, fragment := none }) ∧
    (∀ env st loc r, env.referer = true →
      make_referer loc st.request.url = some r →
      getHeader HeaderName.referer (applyReferer env st loc).request.headers =
        some r.serialize) ∧
    (∀ env st loc, env.referer = true →
      make_referer loc st.request.url = none → applyReferer env st loc = st) := by
  refine ⟨?_, ?_, ?_, ?_⟩
  · intro next previous
    by_cases h : next.scheme = "http" ∧ previous.scheme = "https" <;>
      simp [make_referer, h]
  · intro next previous r h
    unfold make_referer at h
    split at h
    · cases h
    · cases h
      rfl
  · intro env st loc r href hmake
    unfold applyReferer
    rw [if_pos href, hmake]
    exact getHeader_insertHeader_self
  · intro env st loc href hmake
    unfold applyReferer
    rw [if_pos href, hmake]

/-- C8 witness: redirecting the https task at `urlB` (with userinfo and
fragment) to the https `urlC` stores the stripped previous URL as the
Referer value. -/
theorem c8_witness :
    getHeader HeaderName.referer (applyReferer envFollow2 stB urlC).request.headers =
      some strippedB.serialize :=
  c8_referer_value.2.2.1 envFollow2 stB urlC strippedB rfl (by decide)

/-- C1 counterexample: the claim says the chain grows only when a Follow
decision causes a resend, and that a merely eligible redirect with
policy Stop or Error leaves the chain unchanged. On an eligible 302 with
a usable Location, a Stop decision returns the original response yet the
chain has grown from 0 to 1 entries, and an Error decision after zero
Follow decisions surfaces with a recorded chain of length 1, not 0. -/
theorem c1_counterexample :
    step envStop stA resp302 = StepResult.done resp302 stStop1 ∧
    stStop1.redirect_chain.length = stA.redirect_chain.length + 1 ∧
    step envFail stA resp302 = StepResult.failed 7 urlA stStop1 := by
  decide

/-- C1 amended: the chain is extended by exactly the current URL
whenever the response is classified eligible and its Location resolves,
before and therefore regardless of the policy decision (Follow, Stop and
Error all extend it); otherwise it is unchanged. Consequently, after N
Follow resends ended by an Error decision the recorded chain length is
N + 1, not N. -/
theorem c1_amended_chain :
    (∀ env st resp,
      (step env st resp).state.redirect_chain =
        if (classify st resp.status).2 = true ∧
            (resolveLocation env (classify st resp.status).1.request.url resp).isSome = true
        then st.redirect_chain ++ [st.request.url]
        else st.redirect_chain) ∧
    (∀ env rs st n cause u stf,
      runCount env st rs = (n, RunOutcome.failed cause u stf) →
      stf.redirect_chain.length = st.redirect_chain.length + n + 1) :=
  ⟨step_state_chain,
   fun env rs st n cause u stf h => runCount_failed_chain env rs st n cause u stf h⟩

/-- C1 witness: two Follow resends then an Error decision leave a
recorded chain of length 3 = 2 + 1. -/
theorem c1_witness :
    runCount envFollow2 stA [resp301, resp302, resp302] =
      (2, RunOutcome.failed 9 urlAB stFin) ∧
    stFin.redirect_chain.length = stA.redirect_chain.length + 2 + 1 :=
  ⟨by decide,
   c1_amended_chain.2 envFollow2 [resp301, resp302, resp302] stA 2 9 urlAB stFin
     (by decide)⟩

/-- C6 counterexample: the claim says the caller-side wait is bounded by
the minimum of the per-request timeout and the client default. With a
request timeout of 10 and a client default of 2, a future ready at
instant 5 completes successfully at instant 5 on a parking-compliant
schedule, exceeding min(10, 2) = 2: the code uses the request timeout
alone, not the minimum. -/
theorem c6_counterexample :
    clientSendWait (some 10) (some 2) (some 5) [0, 5] = some (true, 5) ∧
    ¬(5 ≤ min 10 2) := by
  decide

/-- C6 amended: the effective executor timeout is the per-request
timeout when set, otherwise the client default (the request value
overrides rather than being combined by minimum); whenever an effective
timeout exists, any return of the wait happens no later than it (on
schedules whose park wakeups respect the deadline bound); when neither
timeout is set the never-ready wait never returns. -/
theorem c6_amended_timeout :
    (∀ rt ct et readyAt ts res t,
      effectiveTimeout rt ct = some et →
      (∀ u ∈ ts, u ≤ et) →
      clientSendWait rt ct readyAt ts = some (res, t) →
      t ≤ et) ∧
    (∀ a b, effectiveTimeout (some a) b = some a) ∧
    (∀ b, effectiveTimeout none b = b) ∧
    (∀ ts, clientSendWait none none none ts = none) := by
  refine ⟨?_, fun a b => rfl, fun b => rfl, ?_⟩
  · intro rt ct et readyAt ts res t het hts h
    unfold clientSendWait execute_blocking_flatten_timeout at h
    rw [het] at h
    exact execute_blocking_timeout_le readyAt et ts res t hts h
  · intro ts
    unfold clientSendWait execute_blocking_flatten_timeout effectiveTimeout
    rw [execute_blocking_never ts]
    rfl

/-- C6 witness: with request timeout 10 and client default 2, a
never-ready future times out at instant 10 — bounded by the effective
timeout 10. -/
theorem c6_witness :
    clientSendWait (some 10) (some 2) none [0, 3, 10] = some (false, 10) ∧ 10 ≤ 10 :=
  ⟨by decide,
   c6_amended_timeout.1 (some 10) (some 2) 10 none [0, 3, 10] false 10 rfl (by decide)
     (by decide)⟩

/-- C9 counterexample: the claim says every recursive invocation of the
blocking run functions from within a ParkingExecutor-driven task is
detected and hard-fails. In a debug build on a thread that is not inside
a tokio runtime context (the situation of a task driven only by the
ParkingExecutor) the `enter()` check passes, and in a release build it
checks nothing at all — even inside a tokio runtime. -/
theorem c9_counterexample :
    blockingInvocationDetected
      { debugAssertions := true, insideTokioRuntime := false, insideParkingTask := true } =
        false ∧
    blockingInvocationDetected
      { debugAssertions := false, insideTokioRuntime := true, insideParkingTask := true } =
        false := by
  decide

/-- C9 amended: the `enter()` check hard-fails exactly when debug
assertions are enabled and the calling thread is already inside a tokio
runtime context; whether the thread is inside a ParkingExecutor-driven
task plays no role in the detection. -/
theorem c9_amended_detection (ctx : ExecContext) :
    (blockingInvocationDetected ctx = true ↔
      ctx.debugAssertions = true ∧ ctx.insideTokioRuntime = true) ∧
    (∀ b, blockingInvocationDetected { ctx with insideParkingTask := b } =
      blockingInvocationDetected ctx) := by
  constructor
  · cases hd : ctx.debugAssertions <;> cases ht : ctx.insideTokioRuntime <;>
      simp [blockingInvocationDetected, enter, hd, ht]
  · intro b
    simp [blockingInvocationDetected, enter]

end ReqCore
